import Mathlib

/-!
Verification development for the AlgoTest trade analyzer (`app.py`).

The analytic layer of the program is embedded shallowly:
* timestamps are integers (epoch seconds); a pandas `Timedelta.days` is the
  floor of the difference in days, i.e. `Int.fdiv (exit - entry) 86400`;
* prices and quantities are rationals;
* a normalized trade row is the structure `Trade` below; the matcher and the
  aggregations are translated line by line from `app.py`.
-/

namespace AlgoTest

/-- One day in seconds. -/
def secondsPerDay : Int := 86400

/-- `pandas` `(exit - entry).days`: the floor of the difference in whole days
(`Timedelta.days` floors toward minus infinity). -/
def daysBetween (entry exit : Int) : Int :=
  Int.fdiv (exit - entry) secondsPerDay

/-- A normalized trade row of the sorted dataframe (`df` after line 32 of
`app.py`), with every field present.  `strike = none` models a NaN `Strike`
cell: the program classifies a row as a cash/underlying trade exactly when
`Strike` is NaN (`df["Strike"].isna()`). -/
structure Trade where
  ticker : String
  position : Int
  tradedPrice : ℚ
  quantity : ℚ
  tradedTime : Int
  strike : Option ℚ
  expiry : Option String
deriving DecidableEq, Repr

/-- Line 37 of `app.py`: `Cashflow = -Position * TradedPrice * Quantity`. -/
def cashflow (t : Trade) : ℚ :=
  -(t.position : ℚ) * t.tradedPrice * t.quantity

/-- Line 50: `total_pnl = df["Cashflow"].sum()`. -/
def total_pnl (l : List Trade) : ℚ :=
  (l.map cashflow).sum

/-- Line 51: `return_pct = (total_pnl / capital * 100) if capital > 0 else 0`. -/
def return_pct (capital totalPnl : ℚ) : ℚ :=
  if 0 < capital then totalPnl / capital * 100 else 0

/-- An entry of the `cash_positions` list built in lines 113-121 of `app.py`. -/
structure ClosedPosition where
  ticker : String
  entryTime : Int
  exitTime : Int
  quantity : ℚ
  holdingDays : Int
deriving DecidableEq, Repr

/-- Lines 109-123 of `app.py`: the inner `while qty_to_close > 0 and
open_positions:` loop of the FIFO matcher.  Arguments: the closing `row`, the
current `open_positions` queue, and `qty_to_close`.  Returns the emitted
`ClosedPosition`s (in order) and the queue left behind.  Note that line 110
(`entry = open_positions.pop(0)`) removes the lot unconditionally and the loop
body never re-enqueues it, even when `matched_qty < entry["Quantity"]`. -/
def closeLoop (row : Trade) : List Trade → ℚ → List ClosedPosition × List Trade
  | [], _ => ([], [])
  | entry :: rest, qtyToClose =>
    if 0 < qtyToClose then
      let matched := min qtyToClose entry.quantity
      let cp : ClosedPosition :=
        { ticker := row.ticker
          entryTime := entry.tradedTime
          exitTime := row.tradedTime
          quantity := matched
          holdingDays := daysBetween entry.tradedTime row.tradedTime }
      let res := closeLoop row rest (qtyToClose - matched)
      (cp :: res.1, res.2)
    else ([], entry :: rest)

/-- One iteration of the `for _, row in cash_df.iterrows():` loop (lines
103-123 of `app.py`).  The state is the pair
(`cash_positions` so far, `open_positions` queue).  Line 104: a row with
`Position == 1` is appended to the single shared `open_positions` list; any
other row runs the closing loop with `qty_to_close = row["Quantity"]`. -/
def stepTrade (st : List ClosedPosition × List Trade) (row : Trade) :
    List ClosedPosition × List Trade :=
  if row.position = 1 then (st.1, st.2 ++ [row])
  else
    let res := closeLoop row st.2 row.quantity
    (st.1 ++ res.1, res.2)

/-- The whole matcher loop of lines 100-123, starting from
`cash_positions = []` and `open_positions = []`.  There is one
`open_positions` list for the entire `cash_df`, not one per ticker. -/
def runMatcher (trades : List Trade) : List ClosedPosition × List Trade :=
  trades.foldl stepTrade ([], [])

/-- Line 98: `cash_df = df[df["Strike"].isna()]`. -/
def cash_df (l : List Trade) : List Trade :=
  l.filter (fun t => t.strike.isNone)

/-- The `cash_positions` list produced by lines 98-123 of `app.py` for a
sorted trade list. -/
def cash_positions (l : List Trade) : List ClosedPosition :=
  (runMatcher (cash_df l)).1

/-! Concrete trades for the matcher scenarios (spec §8, Scenarios A-C). -/

/-- Scenario trade: open 10 units of "X" at day 0. -/
def openX10 : Trade :=
  { ticker := "X", position := 1, tradedPrice := 100, quantity := 10
    tradedTime := 0, strike := none, expiry := none }

/-- Scenario trade: close 6 units of "X" at day 3. -/
def closeX6 : Trade :=
  { ticker := "X", position := -1, tradedPrice := 100, quantity := 6
    tradedTime := 259200, strike := none, expiry := none }

/-- Scenario trade: close 4 units of "X" at day 3. -/
def closeX4 : Trade :=
  { ticker := "X", position := -1, tradedPrice := 100, quantity := 4
    tradedTime := 259200, strike := none, expiry := none }

/-- Scenario trade: open 5 units of "A" at day 0 (for the isolation claim). -/
def openA5 : Trade :=
  { ticker := "A", position := 1, tradedPrice := 10, quantity := 5
    tradedTime := 0, strike := none, expiry := none }

/-- Scenario trade: close 5 units of "B" at day 1, with no open trade on "B". -/
def closeB5 : Trade :=
  { ticker := "B", position := -1, tradedPrice := 10, quantity := 5
    tradedTime := 86400, strike := none, expiry := none }

/-- Scenario trade: close 5 units of "Y" with no prior open (Scenario C). -/
def closeY5 : Trade :=
  { ticker := "Y", position := -1, tradedPrice := 50, quantity := 5
    tradedTime := 0, strike := none, expiry := none }

/-! ### Helper lemmas about the closing loop -/

/-- A queue of positive-quantity lots has a non-negative total quantity. -/
lemma queue_sum_nonneg (q : List Trade) (hp : ∀ e ∈ q, 0 < e.quantity) :
    0 ≤ (q.map (fun e => e.quantity)).sum := by
  induction q with
  | nil => simp
  | cons e rest ih =>
    have he : 0 < e.quantity := hp e (List.mem_cons_self e rest)
    have hrest : 0 ≤ (rest.map (fun e => e.quantity)).sum :=
      ih (fun x hx => hp x (List.mem_cons_of_mem e hx))
    simp only [List.map_cons, List.sum_cons]
    linarith

/-- When the closing quantity is at least the whole queue's quantity, the loop
pops every lot, emits positions whose quantities sum to the queue's total, and
leaves the queue empty. -/
lemma closeLoop_exhaust (row : Trade) (q : List Trade) (qty : ℚ)
    (hp : ∀ e ∈ q, 0 < e.quantity)
    (hq : (q.map (fun e => e.quantity)).sum ≤ qty) :
    (((closeLoop row q qty).1.map (fun c => c.quantity)).sum =
        (q.map (fun e => e.quantity)).sum)
    ∧ (closeLoop row q qty).2 = [] := by
  induction q generalizing qty with
  | nil => simp [closeLoop]
  | cons e rest ih =>
    have he : 0 < e.quantity := hp e (List.mem_cons_self e rest)
    have hp' : ∀ x ∈ rest, 0 < x.quantity :=
      fun x hx => hp x (List.mem_cons_of_mem e hx)
    have hrest : 0 ≤ (rest.map (fun x => x.quantity)).sum := queue_sum_nonneg rest hp'
    have hsum : (List.map (fun x => x.quantity) (e :: rest)).sum =
        e.quantity + (rest.map (fun x => x.quantity)).sum := by
      simp
    have hqty : e.quantity + (rest.map (fun x => x.quantity)).sum ≤ qty := by
      rw [hsum] at hq; exact hq
    have hpos : 0 < qty := by linarith
    have hele : e.quantity ≤ qty := by linarith
    have hmin : min qty e.quantity = e.quantity := min_eq_right hele
    have hrec := ih (qty - e.quantity) hp' (by linarith)
    simp only [closeLoop, if_pos hpos, hmin]
    constructor
    · simp only [List.map_cons, List.sum_cons, hrec.1, hsum]
    · exact hrec.2

/-- The closing loop reads only the `ticker` and `tradedTime` of the closing
row, never its `position`. -/
lemma closeLoop_congr (row row' : Trade)
    (ht : row.ticker = row'.ticker) (htt : row.tradedTime = row'.tradedTime) :
    ∀ (q : List Trade) (qty : ℚ), closeLoop row q qty = closeLoop row' q qty := by
  intro q
  induction q with
  | nil => intro qty; simp [closeLoop]
  | cons e rest ih =>
    intro qty
    simp only [closeLoop, ht, htt, ih]

/-! ### Claim theorems: matcher scenarios -/

/-- C1: the spec requires FIFO partial-fill splitting — a partially matched
lot keeps its remainder in the queue, so that open qty=10, close qty=6,
close qty=4 yields two ClosedPositions with quantities 6 and 4.  This theorem
evaluates the code at that input: `open_positions.pop(0)` (line 110 of
`app.py`) discards the lot even when only 6 of its 10 units are matched, so
exactly one ClosedPosition (quantity 6) is emitted and the second close finds
an empty queue. -/
theorem C1_partial_fill_code_eval :
    cash_positions [openX10, closeX6, closeX4] =
      [{ ticker := "X", entryTime := 0, exitTime := 259200, quantity := 6,
         holdingDays := 3 }]
    ∧ (cash_positions [openX10, closeX6, closeX4]).length ≠ 2 := by
  decide

/-- C2: the spec requires one independent open-lot queue per instrument with
no cross-instrument matching.  This theorem evaluates the code on an open of
instrument "A" followed by a close of instrument "B": the single shared
`open_positions` list (lines 100-123 of `app.py`) matches B's close against
A's lot (the emitted position carries A's entry time), and B's emitted
positions change when A's trades are present in the input. -/
theorem C2_cross_instrument_code_eval :
    cash_positions [openA5, closeB5] =
      [{ ticker := "B", entryTime := 0, exitTime := 86400, quantity := 5,
         holdingDays := 1 }]
    ∧ cash_positions [closeB5] = []
    ∧ (cash_positions [openA5, closeB5]).filter (fun c => decide (c.ticker = "B")) ≠
        cash_positions [closeB5] := by
  decide

/-- C3: the spec's FIFO-conservation property — with total close quantity ≤
total open quantity, matched quantities sum to the total closed quantity.
This theorem evaluates the code on open qty=10, close qty=6, close qty=4
(total opened 10, total closed 10): the emitted matched quantities sum to 6,
not 10, because the partially matched lot's remaining 4 units are discarded
by `pop(0)` at line 110 of `app.py`. -/
theorem C3_conservation_code_eval :
    ((((cash_df [openX10, closeX6, closeX4]).filter
        (fun t => decide (t.position = 1))).map (fun t => t.quantity)).sum = 10)
    ∧ ((((cash_df [openX10, closeX6, closeX4]).filter
        (fun t => decide (t.position ≠ 1))).map (fun t => t.quantity)).sum = 10)
    ∧ (((cash_positions [openX10, closeX6, closeX4]).map
        (fun c => c.quantity)).sum = 6) := by
  have h1 : (cash_df [openX10, closeX6, closeX4]).filter
      (fun t => decide (t.position = 1)) = [openX10] := by decide
  have h2 : (cash_df [openX10, closeX6, closeX4]).filter
      (fun t => decide (t.position ≠ 1)) = [closeX6, closeX4] := by decide
  have h3 : cash_positions [openX10, closeX6, closeX4] =
      [{ ticker := "X", entryTime := 0, exitTime := 259200, quantity := 6,
         holdingDays := 3 }] := by decide
  rw [h1, h2, h3]
  norm_num [openX10, closeX6, closeX4]

/-- C8: return percentage is totalPnL / capital * 100 when capital > 0, and
exactly 0 when capital = 0 (line 51 of `app.py`); the zero-capital case is
defined behavior, not an error. -/
theorem C8_return_pct (totalPnl capital : ℚ) :
    (0 < capital → return_pct capital totalPnl = totalPnl / capital * 100)
    ∧ (capital = 0 → return_pct capital totalPnl = 0) := by
  constructor
  · intro h; simp [return_pct, h]
  · intro h; simp [return_pct, h]

/-- C8 witness: capital 2 with P&L 5, and capital 0 with nonzero P&L 7. -/
theorem C8_witness :
    return_pct 2 5 = 5 / 2 * 100 ∧ return_pct 0 7 = 0 :=
  ⟨(C8_return_pct 5 2).1 (by norm_num), (C8_return_pct 7 0).2 rfl⟩

/-- C9: a closing trade whose quantity is at least the total quantity in the
open-lot queue (positive lots) emits ClosedPositions exactly for the available
quantity, leaves the queue empty, and the unmatched remainder is dropped
silently — `closeLoop` is a total function, so no error can be raised.  In
particular an empty queue yields zero ClosedPositions. -/
theorem C9_silent_tolerance (row : Trade) (q : List Trade)
    (hside : row.position ≠ 1)
    (hp : ∀ e ∈ q, 0 < e.quantity)
    (hq : (q.map (fun e => e.quantity)).sum ≤ row.quantity) :
    (((stepTrade ([], q) row).1.map (fun c => c.quantity)).sum =
        (q.map (fun e => e.quantity)).sum)
    ∧ (stepTrade ([], q) row).2 = [] := by
  have h := closeLoop_exhaust row q row.quantity hp hq
  simpa [stepTrade, if_neg hside] using h

/-- C9 witness: Scenario C — a close of qty=5 with no prior open emits
positions summing to 0 (i.e. none) and no error. -/
theorem C9_witness :
    (((stepTrade ([], []) closeY5).1.map (fun c => c.quantity)).sum = 0)
    ∧ (stepTrade ([], []) closeY5).2 = [] := by
  simpa using C9_silent_tolerance closeY5 [] (by decide) (by simp) (by norm_num [closeY5])

/-- C10: the matcher opens a lot iff the row's `Position` is exactly 1 (line
104 of `app.py`); every other side value — -1, 0, or anything else — takes
the closing branch with the row's full quantity, and the matcher's output is
the same as if the side were -1. -/
theorem C10_side_classification (t : Trade) (st : List ClosedPosition × List Trade) :
    (t.position = 1 → stepTrade st t = (st.1, st.2 ++ [t]))
    ∧ (t.position ≠ 1 →
        stepTrade st t =
          (st.1 ++ (closeLoop t st.2 t.quantity).1, (closeLoop t st.2 t.quantity).2))
    ∧ (∀ s : Int, s ≠ 1 →
        stepTrade st { t with position := s } = stepTrade st { t with position := -1 }) := by
  refine ⟨fun h => ?_, fun h => ?_, fun s hs => ?_⟩
  · simp [stepTrade, h]
  · simp [stepTrade, h]
  · have h0 : ({ t with position := s } : Trade).position = s := rfl
    have h1 : ({ t with position := -1 } : Trade).position = (-1 : Int) := rfl
    have hc := closeLoop_congr ({ t with position := s })
      ({ t with position := -1 }) rfl rfl
    simp only [stepTrade, h0, h1, if_neg hs, if_neg (by decide : ¬(-1 : Int) = 1), hc]

/-- C10 witness: side 0 closes exactly like side -1, and side +1 opens. -/
theorem C10_witness :
    stepTrade ([], [openX10]) { closeX6 with position := 0 } =
      stepTrade ([], [openX10]) { closeX6 with position := -1 }
    ∧ stepTrade ([], []) openX10 = ([], [openX10]) :=
  ⟨(C10_side_classification closeX6 ([], [openX10])).2.2 0 (by decide),
   by simpa using (C10_side_classification openX10 ([], [])).1 (by decide)⟩

/-! ## The loader / normalizer (lines 28-32 of `app.py`)

A raw entry of the `data.trades` array is loosely typed: any key may be
absent.  `pd.DataFrame` turns an absent key into NaN when at least one other
entry supplies the column, and raises a `KeyError` when a column the script
accesses is absent from every entry.  `pd.to_datetime` raises on an
unparseable timestamp string and turns a missing value into NaT.  Timestamp
strings are modelled as decimal epoch-second numerals: `parseTime` succeeds
exactly on the strings the timestamp parser accepts. -/

/-- A raw entry of the `data.trades` array; `none` = key absent (or null). -/
structure RawTrade where
  ticker : Option String
  position : Option Int
  tradedPrice : Option ℚ
  quantity : Option ℚ
  tradedTime : Option String
  strike : Option ℚ
  expiry : Option String
deriving DecidableEq, Repr

/-- The numeric value of a decimal digit character, if it is one. -/
def digitVal (c : Char) : Option Nat :=
  if 48 ≤ c.toNat ∧ c.toNat ≤ 57 then some (c.toNat - 48) else none

/-- Accumulate decimal digits most-significant first; any non-digit fails. -/
def parseDigits : List Char → Nat → Option Nat
  | [], acc => some acc
  | c :: cs, acc =>
    match digitVal c with
    | some d => parseDigits cs (acc * 10 + d)
    | none => none

/-- Timestamp parsing (`pd.to_datetime` on one string), modelled as parsing a
non-empty decimal epoch-second numeral: the parse succeeds exactly on the
strings the timestamp parser accepts, and fails on the rest. -/
def parseTime (s : String) : Option Int :=
  match s.data with
  | [] => none
  | cs => (parseDigits cs 0).map (fun n => (n : Int))

/-- A normalized row after `pd.to_datetime`: the timestamp is parsed, every
other field is kept as-is; `none` models a NaN cell. -/
structure NTrade where
  ticker : Option String
  position : Option Int
  tradedPrice : Option ℚ
  quantity : Option ℚ
  tradedTime : Option Int
  strike : Option ℚ
  expiry : Option String
deriving DecidableEq, Repr

/-- Row-wise normalization: parse the timestamp, keep the other cells. -/
def toNTrade (r : RawTrade) : NTrade :=
  { ticker := r.ticker, position := r.position, tradedPrice := r.tradedPrice
    quantity := r.quantity, tradedTime := r.tradedTime.bind parseTime
    strike := r.strike, expiry := r.expiry }

/-- The errors the loader can raise (modelling the `KeyError` /
parse-`ValueError` exceptions that abort the run). -/
inductive MalformedInputError
  | missingTrades
  | missingColumn
  | badTimestamp
deriving DecidableEq, Repr

/-- A dataframe column exists iff at least one entry supplies the key; the
script accesses the `TradedTime`, `Position`, `TradedPrice`, `Quantity` and
`Ticker` columns, so each must be present in at least one entry or a
`KeyError` aborts the run. -/
def requiredColumnsPresent (rows : List RawTrade) : Bool :=
  rows.any (fun r => r.ticker.isSome) && rows.any (fun r => r.position.isSome) &&
  rows.any (fun r => r.tradedPrice.isSome) && rows.any (fun r => r.quantity.isSome) &&
  rows.any (fun r => r.tradedTime.isSome)

/-- `pd.to_datetime` raises iff some present timestamp string fails to parse
(a missing cell becomes NaT without an error). -/
def hasBadTimestamp (rows : List RawTrade) : Bool :=
  rows.any (fun r =>
    match r.tradedTime with
    | some s => (parseTime s).isNone
    | none => false)

/-- Key order used by `df.sort_values("TradedTime")`: ascending by parsed
timestamp, with NaT (missing) sorted last (`na_position` defaults to
`"last"`). -/
def ntLe : Option Int → Option Int → Bool
  | none, none => true
  | none, some _ => false
  | some _, none => true
  | some a, some b => decide (a ≤ b)

/-- The sort relation on normalized rows: by `tradedTime` under `ntLe`. -/
def ntRel (a b : NTrade) : Prop :=
  ntLe a.tradedTime b.tradedTime = true

instance : DecidableRel ntRel :=
  fun a b => instDecidableEqBool (ntLe a.tradedTime b.tradedTime) true

/-- Everything line 32 of `app.py` guarantees about
`df.sort_values("TradedTime")`: the output is some permutation of the rows
that is sorted by the timestamp key.  pandas' default `kind='quicksort'` is
documented as not stable, so the relative order of rows with equal timestamps
is implementation-defined; the source sort is therefore modelled relationally
by this predicate rather than by any particular tie-breaking function. -/
def sortValuesOutput (l out : List NTrade) : Prop :=
  List.Perm out l ∧ List.Pairwise ntRel out

/-- The stable sort that spec §4.1 prescribes for the Normalizer (ascending
by `tradedTime`, NaT last, ties keeping their original relative order),
stated in the spec's words as the comparison point for the sorting claim.
It is one admissible implementation of `sortValuesOutput`; the source itself
does not guarantee stability. -/
def specStableSort (l : List NTrade) : List NTrade :=
  List.insertionSort ntRel l

/-- Lines 28-32 of `app.py`: `data["data"]["trades"]` (KeyError if the path
is absent), dataframe construction (KeyError if a required column is absent
from every entry), timestamp parsing (error on an unparseable string), then
the sort.  An entry-level missing field never raises once the column exists:
it becomes NaN/NaT and survives into the output.  The success payload uses
the stable sort as a representative sorted permutation of the rows; the
loading claims concern only whether the run aborts or completes, never the
implementation-defined order of equal-timestamp rows. -/
def loadNormalize (doc : Option (List RawTrade)) :
    Except MalformedInputError (List NTrade) :=
  match doc with
  | none => .error .missingTrades
  | some rows =>
    if requiredColumnsPresent rows then
      if hasBadTimestamp rows then .error .badTimestamp
      else .ok (specStableSort (rows.map toNTrade))
    else .error .missingColumn

/-! ### Order lemmas for the timestamp key -/

lemma ntLe_total (a b : Option Int) : ntLe a b = true ∨ ntLe b a = true := by
  cases a <;> cases b <;> simp [ntLe]
  omega

lemma ntLe_trans {a b c : Option Int} (hab : ntLe a b = true)
    (hbc : ntLe b c = true) : ntLe a c = true := by
  cases a <;> cases b <;> cases c <;> simp [ntLe] at *
  omega

lemma ntLe_antisymm {a b : Option Int} (hab : ntLe a b = true)
    (hba : ntLe b a = true) : a = b := by
  cases a <;> cases b <;> simp [ntLe] at *
  omega

instance : IsTotal NTrade ntRel :=
  ⟨fun a b => ntLe_total a.tradedTime b.tradedTime⟩

instance : IsTrans NTrade ntRel :=
  ⟨fun _ _ _ hab hbc => ntLe_trans hab hbc⟩

/-! ### C4: sorting determinism -/

/-- Two normalized rows tied at timestamp 100 but differing in price. -/
def ntTie1 : NTrade :=
  { ticker := some "A", position := some 1, tradedPrice := some 1
    quantity := some 1, tradedTime := some 100, strike := none, expiry := none }

/-- Second tied row (same timestamp 100, price 2). -/
def ntTie2 : NTrade :=
  { ticker := some "A", position := some 1, tradedPrice := some 2
    quantity := some 1, tradedTime := some 100, strike := none, expiry := none }

/-- A row at the distinct timestamp 300. -/
def ntT300 : NTrade :=
  { ticker := some "A", position := some (-1), tradedPrice := some 3
    quantity := some 1, tradedTime := some 300, strike := none, expiry := none }

/-- C4 counterexample: the claim asserts both that the normalized output is
identical for every permutation of the input and that timestamp ties are
broken by original input order (stable sort).  Those two assertions
contradict each other at this concrete input: the tie-stable behavior the
claim itself prescribes (computed here by the spec-side `specStableSort`)
maps the two permutations `[ntTie1, ntTie2]` and `[ntTie2, ntTie1]` of the
same pair of equal-timestamp trades to different output sequences, so no
sort whatsoever — pandas' quicksort included — can satisfy the claim as
stated. -/
theorem C4_counterexample :
    List.Perm [ntTie1, ntTie2] [ntTie2, ntTie1]
    ∧ specStableSort [ntTie1, ntTie2] ≠ specStableSort [ntTie2, ntTie1] := by
  constructor
  · exact List.Perm.swap ntTie2 ntTie1 []
  · decide

/-- C4 amended: the source guarantees only that the Normalizer's output is a
permutation of its input sorted by `tradedTime` (`sortValuesOutput`; pandas'
default quicksort leaves the order of equal-timestamp rows
implementation-defined).  Part 1: the spec-side stable sort is one admissible
implementation of that guarantee.  Part 2 (determinism): when the input's
timestamps are pairwise distinct, ANY two outputs satisfying the source
guarantee on any two permutations of the input are equal — so on tie-free
trade sets, and only there, the output sequence is identical across
permutations regardless of the sort algorithm's tie behavior. -/
theorem C4_amended_sort_spec (l1 l2 out1 out2 : List NTrade) :
    sortValuesOutput l1 (specStableSort l1)
    ∧ (sortValuesOutput l1 out1 → sortValuesOutput l2 out2 → l1.Perm l2 →
        (l1.map (fun t => t.tradedTime)).Nodup → out1 = out2) := by
  constructor
  · exact ⟨List.perm_insertionSort ntRel l1, List.sorted_insertionSort ntRel l1⟩
  · intro h1 h2 hp hnd
    have hperm : List.Perm out1 out2 := h1.1.trans (hp.trans h2.1.symm)
    have hnd1 : (out1.map (fun t => t.tradedTime)).Nodup :=
      ((h1.1.map (fun t => t.tradedTime)).nodup_iff).mpr hnd
    have hnd2 : (out2.map (fun t => t.tradedTime)).Nodup :=
      ((hperm.map (fun t => t.tradedTime)).nodup_iff).mp hnd1
    have hpair1 : List.Pairwise
        (fun a b : NTrade => a.tradedTime ≠ b.tradedTime) out1 :=
      List.pairwise_map.mp hnd1
    have hpair2 : List.Pairwise
        (fun a b : NTrade => a.tradedTime ≠ b.tradedTime) out2 :=
      List.pairwise_map.mp hnd2
    haveI : IsAntisymm NTrade
        (fun a b : NTrade => ntRel a b ∧ a.tradedTime ≠ b.tradedTime) :=
      ⟨fun a b h1 h2 => absurd (ntLe_antisymm h1.1 h2.1) h1.2⟩
    exact List.eq_of_perm_of_sorted hperm (h1.2.and hpair1) (h2.2.and hpair2)

/-- C4 witness: on a concrete tie-free input, the stable sort meets the
source's sorted-permutation guarantee, and the two permutations of the input
therefore have equal outputs. -/
theorem C4_witness :
    specStableSort [ntT300, ntTie1] = specStableSort [ntTie1, ntT300] :=
  (C4_amended_sort_spec [ntT300, ntTie1] [ntTie1, ntT300]
      (specStableSort [ntT300, ntTie1]) (specStableSort [ntTie1, ntT300])).2
    (C4_amended_sort_spec [ntT300, ntTie1] [ntTie1, ntT300] [] []).1
    (C4_amended_sort_spec [ntTie1, ntT300] [ntT300, ntTie1] [] []).1
    (List.Perm.swap ntTie1 ntT300 []) (by decide)

/-! ### C5: malformed input -/

/-- A fully populated raw trade entry. -/
def rawFull : RawTrade :=
  { ticker := some "X", position := some 1, tradedPrice := some 100
    quantity := some 10, tradedTime := some "100", strike := none, expiry := none }

/-- A raw trade entry that lacks the required `Position` field. -/
def rawNoSide : RawTrade :=
  { ticker := some "X", position := none, tradedPrice := some 100
    quantity := some 4, tradedTime := some "200", strike := none, expiry := none }

/-- C5 counterexample: the claim says a trade entry missing a required field
raises `MalformedInputError` and aborts the run.  On this input — one full
entry and one entry missing `Position` — the code raises nothing: the missing
cell becomes NaN and the load succeeds, so analytics are produced. -/
theorem C5_counterexample :
    rawNoSide.position = none
    ∧ (loadNormalize (some [rawFull, rawNoSide])).isOk = true := by
  constructor
  · rfl
  · decide

/-- C5 amended: the run aborts with an error when the trade-array field is
absent, when a present timestamp value fails to parse, or when a required
column is missing from every entry; but an individual entry missing a
required field does not raise as long as some entry supplies that column —
the cell becomes NaN/NaT and the run completes, producing analytics. -/
theorem C5_amended_load_spec :
    (loadNormalize none = .error .missingTrades)
    ∧ (∀ rows : List RawTrade, requiredColumnsPresent rows = false →
        loadNormalize (some rows) = .error .missingColumn)
    ∧ (∀ rows : List RawTrade,
        (∃ r ∈ rows, ∃ s, r.tradedTime = some s ∧ parseTime s = none) →
        requiredColumnsPresent rows = true →
        loadNormalize (some rows) = .error .badTimestamp)
    ∧ (∀ rows : List RawTrade, requiredColumnsPresent rows = true →
        hasBadTimestamp rows = false →
        loadNormalize (some rows) = .ok (specStableSort (rows.map toNTrade))) := by
  refine ⟨rfl, fun rows h => ?_, fun rows hbad hcols => ?_, fun rows hcols hts => ?_⟩
  · simp [loadNormalize, h]
  · have h : hasBadTimestamp rows = true := by
      rcases hbad with ⟨r, hr, s, hs, hps⟩
      simp only [hasBadTimestamp, List.any_eq_true]
      exact ⟨r, hr, by simp [hs, hps]⟩
    simp [loadNormalize, hcols, h]
  · simp [loadNormalize, hcols, hts]

/-- C5 witness: the three error cases and the tolerated-missing-field case,
each at a concrete input. -/
theorem C5_witness :
    loadNormalize none = .error .missingTrades
    ∧ loadNormalize (some [{ rawFull with tradedTime := some "base" }]) =
        .error .badTimestamp
    ∧ loadNormalize (some []) = .error .missingColumn
    ∧ loadNormalize (some [rawFull, rawNoSide]) =
        .ok (specStableSort ([rawFull, rawNoSide].map toNTrade)) :=
  ⟨C5_amended_load_spec.1,
   C5_amended_load_spec.2.2.1 _
     ⟨{ rawFull with tradedTime := some "base" }, by decide, "base", rfl, by decide⟩
     (by decide),
   C5_amended_load_spec.2.1 [] rfl,
   C5_amended_load_spec.2.2.2 _ (by decide) (by decide)⟩

/-! ## The option-trade aggregations (lines 72-92 and 140-192 of `app.py`)

`pandas.groupby(sort=True)` enumerates the distinct key tuples in ascending
key order and aggregates the member rows of each key; this is modelled as
sorting the deduplicated key list and mapping an aggregation over it.  The
code renders the calendar month as a `"YYYY-MM"` string whose lexicographic
order coincides, for CE years, with the lexicographic order on the
`(year, month)` pair used here. -/

/-- The civil (proleptic Gregorian) date of a day count since 1970-01-01,
as (year, month, day) — the standard days-to-civil algorithm. -/
def civilFromDays (z0 : Int) : Int × Int × Int :=
  let z := z0 + 719468
  let era := Int.fdiv z 146097
  let doe := z - era * 146097
  let yoe := Int.fdiv (doe - Int.fdiv doe 1460 + Int.fdiv doe 36524 - Int.fdiv doe 146096) 365
  let y := yoe + era * 400
  let doy := doe - (365 * yoe + Int.fdiv yoe 4 - Int.fdiv yoe 100)
  let mp := Int.fdiv (5 * doy + 2) 153
  let d := doy - Int.fdiv (153 * mp + 2) 5 + 1
  let m := mp + (if mp < 10 then 3 else -9)
  (if m ≤ 2 then y + 1 else y, m, d)

/-- Line 154 of `app.py`: `TradedTime.dt.to_period("M")` — the calendar
(year, month) of an epoch-second timestamp. -/
def monthOf (t : Int) : Int × Int :=
  ((civilFromDays (Int.fdiv t secondsPerDay)).1,
   (civilFromDays (Int.fdiv t secondsPerDay)).2.1)

/-- Lexicographic combination: strictly smaller first component, or equal
first components and `le`-related second components. -/
def lexLe {α β : Type} (lt : α → α → Prop) (le : β → β → Prop) (p q : α × β) : Prop :=
  lt p.1 q.1 ∨ (p.1 = q.1 ∧ le p.2 q.2)

lemma lexLe_trans {α β : Type} {lt : α → α → Prop} {le : β → β → Prop}
    (hlt : Transitive lt) (hle : Transitive le) : Transitive (lexLe lt le) := by
  rintro a b c (h | ⟨he, h2⟩) (h' | ⟨he', h2'⟩)
  · exact Or.inl (hlt h h')
  · exact Or.inl (he' ▸ h)
  · exact Or.inl (he ▸ h')
  · exact Or.inr ⟨he.trans he', hle h2 h2'⟩

lemma lexLe_total {α β : Type} {lt : α → α → Prop} {le : β → β → Prop}
    (hlt : ∀ x y : α, lt x y ∨ x = y ∨ lt y x)
    (hle : ∀ x y : β, le x y ∨ le y x) :
    ∀ p q : α × β, lexLe lt le p q ∨ lexLe lt le q p := by
  intro p q
  rcases hlt p.1 q.1 with h | h | h
  · exact Or.inl (Or.inl h)
  · rcases hle p.2 q.2 with h2 | h2
    · exact Or.inl (Or.inr ⟨h, h2⟩)
    · exact Or.inr (Or.inr ⟨h.symm, h2⟩)
  · exact Or.inr (Or.inl h)

/-- Strict lexicographic order on (year, month) keys. -/
def monthLt (a b : Int × Int) : Prop :=
  a.1 < b.1 ∨ (a.1 = b.1 ∧ a.2 < b.2)

/-- Non-strict lexicographic order on (year, month) keys. -/
def monthLe (a b : Int × Int) : Prop :=
  a.1 < b.1 ∨ (a.1 = b.1 ∧ a.2 ≤ b.2)

instance (a b : Int × Int) : Decidable (monthLt a b) :=
  inferInstanceAs (Decidable (_ ∨ _))

instance (a b : Int × Int) : Decidable (monthLe a b) :=
  inferInstanceAs (Decidable (_ ∨ _))

lemma monthLt_trans : Transitive monthLt := by
  rintro ⟨a1, a2⟩ ⟨b1, b2⟩ ⟨c1, c2⟩ hab hbc
  simp only [monthLt] at *
  omega

lemma monthLt_tri : ∀ x y : Int × Int, monthLt x y ∨ x = y ∨ monthLt y x := by
  rintro ⟨x1, x2⟩ ⟨y1, y2⟩
  simp only [monthLt, Prod.mk.injEq]
  omega

lemma monthLe_trans : Transitive monthLe := by
  rintro ⟨a1, a2⟩ ⟨b1, b2⟩ ⟨c1, c2⟩ hab hbc
  simp only [monthLe] at *
  omega

lemma monthLe_total : ∀ x y : Int × Int, monthLe x y ∨ monthLe y x := by
  rintro ⟨x1, x2⟩ ⟨y1, y2⟩
  simp only [monthLe]
  omega

instance : IsTrans (Int × Int) monthLe := ⟨fun _ _ _ h h2 => monthLe_trans h h2⟩

instance : IsTotal (Int × Int) monthLe := ⟨monthLe_total⟩

/-- Ascending order on (Ticker, Strike, Expiry) composite keys: lexicographic
by ticker, then strike, then expiry. -/
def key3Le (a b : String × ℚ × String) : Prop :=
  lexLe (fun s t : String => s < t)
    (lexLe (fun x y : ℚ => x < y) (fun s t : String => s ≤ t)) a b

instance (a b : String × ℚ × String) : Decidable (key3Le a b) := by
  unfold key3Le lexLe
  infer_instance

lemma key3Le_trans : Transitive key3Le :=
  lexLe_trans (fun _ _ _ h h' => lt_trans h h')
    (lexLe_trans (fun _ _ _ h h' => lt_trans h h') (fun _ _ _ h h' => le_trans h h'))

lemma key3Le_total : ∀ p q, key3Le p q ∨ key3Le q p :=
  lexLe_total (fun x y => lt_trichotomy x y)
    (lexLe_total (fun x y => lt_trichotomy x y) (fun x y => le_total x y))

instance : IsTrans (String × ℚ × String) key3Le := ⟨fun _ _ _ h h2 => key3Le_trans h h2⟩

instance : IsTotal (String × ℚ × String) key3Le := ⟨key3Le_total⟩

/-- Ascending order on (Month, Ticker, Strike, Expiry) grouping keys. -/
def key4Le (a b : (Int × Int) × String × ℚ × String) : Prop :=
  lexLe monthLt key3Le a b

instance (a b : (Int × Int) × String × ℚ × String) : Decidable (key4Le a b) := by
  unfold key4Le lexLe
  infer_instance

lemma key4Le_trans : Transitive key4Le :=
  lexLe_trans monthLt_trans key3Le_trans

lemma key4Le_total : ∀ p q, key4Le p q ∨ key4Le q p :=
  lexLe_total monthLt_tri key3Le_total

instance : IsTrans ((Int × Int) × String × ℚ × String) key4Le :=
  ⟨fun _ _ _ h h2 => key4Le_trans h h2⟩

instance : IsTotal ((Int × Int) × String × ℚ × String) key4Le :=
  ⟨key4Le_total⟩

/-- Lines 73 and 145 of `app.py`: `df[df["Strike"].notna()]` — the option
trades. -/
def option_df (l : List Trade) : List Trade :=
  l.filter (fun t => t.strike.isSome)

/-- The (Ticker, Strike, Expiry) composite key of an option trade (line 77). -/
def key3Of (t : Trade) : String × ℚ × String :=
  (t.ticker, t.strike.getD 0, t.expiry.getD "")

/-- The (Month, Ticker, Strike, Expiry) grouping key of lines 161-166. -/
def key4Of (t : Trade) : (Int × Int) × String × ℚ × String :=
  (monthOf t.tradedTime, key3Of t)

/-- Lines 148-151 of `app.py`: `"PE" if row["Position"] == -1 else
"PE Buyback"`. -/
def option_type (t : Trade) : String :=
  if t.position = -1 then "PE" else "PE Buyback"

/-- The minimum of a non-empty list of timestamps (`("TradedTime", "min")`). -/
def minTimes : List Int → Int
  | [] => 0
  | t :: ts => ts.foldl min t

/-- The maximum of a non-empty list of timestamps (`("TradedTime", "max")`). -/
def maxTimes : List Int → Int
  | [] => 0
  | t :: ts => ts.foldl max t

/-- A row of the `option_holding` table (lines 76-87 of `app.py`). -/
structure OptionHolding where
  ticker : String
  strike : ℚ
  expiry : String
  entryTime : Int
  exitTime : Int
  holdingDays : Int
deriving DecidableEq, Repr

/-- Lines 76-87 of `app.py`: group the option trades by (Ticker, Strike,
Expiry); per group `EntryTime = min(TradedTime)`, `ExitTime = max(TradedTime)`
and `HoldingDays = (ExitTime - EntryTime).days`.  No FIFO matching is
performed. -/
def option_holding (l : List Trade) : List OptionHolding :=
  (List.insertionSort key3Le ((option_df l).map key3Of).dedup).map fun k =>
    { ticker := k.1
      strike := k.2.1
      expiry := k.2.2
      entryTime := minTimes (((option_df l).filter
        (fun t => decide (key3Of t = k))).map (fun t => t.tradedTime))
      exitTime := maxTimes (((option_df l).filter
        (fun t => decide (key3Of t = k))).map (fun t => t.tradedTime))
      holdingDays := daysBetween
        (minTimes (((option_df l).filter
          (fun t => decide (key3Of t = k))).map (fun t => t.tradedTime)))
        (maxTimes (((option_df l).filter
          (fun t => decide (key3Of t = k))).map (fun t => t.tradedTime))) }

/-- A row of the stage-1 monthly table `monthly_pnl` (lines 160-174). -/
structure MonthlyRow where
  month : Int × Int
  ticker : String
  strike : ℚ
  expiry : String
  optionType : String
  contracts : ℚ
  profitLoss : ℚ
deriving DecidableEq, Repr

/-- Lines 160-174 of `app.py`: group the option trades by (Month, Ticker,
Strike, Expiry); per group `OptionType = first`, `Contracts = sum(Quantity)`,
`Profit_Loss = sum(PnL)` where the per-trade `PnL` of line 157 is the same
`-Position * TradedPrice * Quantity` as the cashflow; rows come out in
ascending key order (`groupby(sort=True)` followed by
`sort_values(["Month", "Ticker"])`). -/
def monthly_pnl (l : List Trade) : List MonthlyRow :=
  (List.insertionSort key4Le ((option_df l).map key4Of).dedup).map fun k =>
    { month := k.1
      ticker := k.2.1
      strike := k.2.2.1
      expiry := k.2.2.2
      optionType := (((option_df l).filter
        (fun t => decide (key4Of t = k))).map option_type).headD ""
      contracts := (((option_df l).filter
        (fun t => decide (key4Of t = k))).map (fun t => t.quantity)).sum
      profitLoss := (((option_df l).filter
        (fun t => decide (key4Of t = k))).map cashflow).sum }

/-- A row of the stage-2 table `month_total` (lines 185-189). -/
structure MonthTotal where
  month : Int × Int
  total : ℚ
deriving DecidableEq, Repr

/-- Lines 185-189 of `app.py`: group the stage-1 rows by Month alone and sum
their `Profit / Loss` column. -/
def month_total (rows : List MonthlyRow) : List MonthTotal :=
  (List.insertionSort monthLe (rows.map (fun r => r.month)).dedup).map fun m =>
    { month := m
      total := ((rows.filter (fun r => decide (r.month = m))).map
        (fun r => r.profitLoss)).sum }

/-! ### Minimum / maximum of a timestamp list -/

lemma foldl_min_le (a : Int) (ts : List Int) :
    ts.foldl min a ≤ a ∧ ∀ x ∈ ts, ts.foldl min a ≤ x := by
  induction ts generalizing a with
  | nil => exact ⟨le_refl a, by simp⟩
  | cons t ts ih =>
    simp only [List.foldl_cons]
    have h := ih (min a t)
    refine ⟨le_trans h.1 (min_le_left a t), ?_⟩
    intro x hx
    rcases List.mem_cons.mp hx with rfl | hx
    · exact le_trans h.1 (min_le_right a x)
    · exact h.2 x hx

lemma foldl_min_mem (a : Int) (ts : List Int) :
    ts.foldl min a = a ∨ ts.foldl min a ∈ ts := by
  induction ts generalizing a with
  | nil => exact Or.inl rfl
  | cons t ts ih =>
    simp only [List.foldl_cons]
    rcases ih (min a t) with h | h
    · rcases min_choice a t with hm | hm
      · exact Or.inl (h.trans hm)
      · exact Or.inr (by rw [h, hm]; exact List.mem_cons_self t ts)
    · exact Or.inr (List.mem_cons_of_mem t h)

lemma foldl_max_ge (a : Int) (ts : List Int) :
    a ≤ ts.foldl max a ∧ ∀ x ∈ ts, x ≤ ts.foldl max a := by
  induction ts generalizing a with
  | nil => exact ⟨le_refl a, by simp⟩
  | cons t ts ih =>
    simp only [List.foldl_cons]
    have h := ih (max a t)
    refine ⟨le_trans (le_max_left a t) h.1, ?_⟩
    intro x hx
    rcases List.mem_cons.mp hx with rfl | hx
    · exact le_trans (le_max_right a x) h.1
    · exact h.2 x hx

lemma foldl_max_mem (a : Int) (ts : List Int) :
    ts.foldl max a = a ∨ ts.foldl max a ∈ ts := by
  induction ts generalizing a with
  | nil => exact Or.inl rfl
  | cons t ts ih =>
    simp only [List.foldl_cons]
    rcases ih (max a t) with h | h
    · rcases max_choice a t with hm | hm
      · exact Or.inl (h.trans hm)
      · exact Or.inr (by rw [h, hm]; exact List.mem_cons_self t ts)
    · exact Or.inr (List.mem_cons_of_mem t h)

lemma minTimes_mem_le (ts : List Int) (h : ts ≠ []) :
    minTimes ts ∈ ts ∧ ∀ x ∈ ts, minTimes ts ≤ x := by
  cases ts with
  | nil => exact absurd rfl h
  | cons t ts =>
    constructor
    · rcases foldl_min_mem t ts with h1 | h1
      · rw [minTimes, h1]; exact List.mem_cons_self t ts
      · rw [minTimes]; exact List.mem_cons_of_mem t h1
    · intro x hx
      rcases List.mem_cons.mp hx with rfl | hx
      · exact (foldl_min_le x ts).1
      · exact (foldl_min_le t ts).2 x hx

lemma maxTimes_mem_ge (ts : List Int) (h : ts ≠ []) :
    maxTimes ts ∈ ts ∧ ∀ x ∈ ts, x ≤ maxTimes ts := by
  cases ts with
  | nil => exact absurd rfl h
  | cons t ts =>
    constructor
    · rcases foldl_max_mem t ts with h1 | h1
      · rw [maxTimes, h1]; exact List.mem_cons_self t ts
      · rw [maxTimes]; exact List.mem_cons_of_mem t h1
    · intro x hx
      rcases List.mem_cons.mp hx with rfl | hx
      · exact (foldl_max_ge x ts).1
      · exact (foldl_max_ge t ts).2 x hx

/-- A grouping-key relation projected to its (month, ticker) prefix. -/
lemma key4Le_monthTicker {k k' : (Int × Int) × String × ℚ × String}
    (h : key4Le k k') :
    monthLt k.1 k'.1 ∨ (k.1 = k'.1 ∧ k.2.1 ≤ k'.2.1) := by
  unfold key4Le lexLe at h
  rcases h with h | ⟨he, h3⟩
  · exact Or.inl h
  · unfold key3Le lexLe at h3
    rcases h3 with h | ⟨he2, _⟩
    · exact Or.inr ⟨he, le_of_lt h⟩
    · exact Or.inr ⟨he, le_of_eq he2⟩

/-! ### C6: monthly rollup -/

/-- C6: over the option trades only, the stage-1 rows are sorted by
(calendarMonth ascending, instrument ascending); every stage-1 row's
`contracts` and `profitLoss` are the sums of quantity and cashflow over the
option trades with that row's (month, ticker, strike, expiry) key; every
option trade is represented by a stage-1 row with its key; and every stage-2
month's total equals the sum of stage-1 `profitLoss` over the rows of that
month. -/
theorem C6_monthly_rollup (l : List Trade) :
    List.Pairwise (fun r s : MonthlyRow =>
        monthLt r.month s.month ∨ (r.month = s.month ∧ r.ticker ≤ s.ticker))
      (monthly_pnl l)
    ∧ (∀ r ∈ monthly_pnl l,
        r.contracts = (((option_df l).filter (fun t =>
          decide (key4Of t = (r.month, r.ticker, r.strike, r.expiry)))).map
            (fun t => t.quantity)).sum
        ∧ r.profitLoss = (((option_df l).filter (fun t =>
          decide (key4Of t = (r.month, r.ticker, r.strike, r.expiry)))).map
            cashflow).sum)
    ∧ (∀ t ∈ option_df l, ∃ r ∈ monthly_pnl l,
        (r.month, r.ticker, r.strike, r.expiry) = key4Of t)
    ∧ (∀ m ∈ month_total (monthly_pnl l),
        m.total = (((monthly_pnl l).filter (fun r =>
          decide (r.month = m.month))).map (fun r => r.profitLoss)).sum) := by
  refine ⟨?_, ?_, ?_, ?_⟩
  · unfold monthly_pnl
    refine List.pairwise_map.mpr ?_
    exact (List.sorted_insertionSort key4Le _).imp fun h => key4Le_monthTicker h
  · intro r hr
    unfold monthly_pnl at hr
    rcases List.mem_map.mp hr with ⟨k, hk, rfl⟩
    obtain ⟨km, kt, ks, ke⟩ := k
    exact ⟨rfl, rfl⟩
  · intro t ht
    have hkmem : key4Of t ∈
        List.insertionSort key4Le ((option_df l).map key4Of).dedup := by
      rw [List.mem_insertionSort, List.mem_dedup]
      exact List.mem_map_of_mem key4Of ht
    exact ⟨_, List.mem_map.mpr ⟨key4Of t, hkmem, rfl⟩, rfl⟩
  · intro m hm
    unfold month_total at hm
    rcases List.mem_map.mp hm with ⟨mo, hmo, rfl⟩
    rfl

/-- Scenario-D option trade: sell 1 contract of Y strike 100 at day 0,
price 5. -/
def optY1 : Trade :=
  { ticker := "Y", position := -1, tradedPrice := 5, quantity := 1
    tradedTime := 0, strike := some 100, expiry := some "2024-01-25" }

/-- Scenario-D option trade: buy 1 contract of Y strike 100 back at day 10,
price 2. -/
def optY2 : Trade :=
  { ticker := "Y", position := 1, tradedPrice := 2, quantity := 1
    tradedTime := 864000, strike := some 100, expiry := some "2024-01-25" }

/-- The stage-1 row of the scenario-D trades: 2 contracts, P&L 5 - 2 = 3, in
calendar month 1970-01. -/
def rowY : MonthlyRow :=
  { month := (1970, 1), ticker := "Y", strike := 100, expiry := "2024-01-25"
    optionType := "PE", contracts := 2, profitLoss := 3 }

/-- The scenario-D trades produce exactly one stage-1 row, `rowY`. -/
lemma monthly_pnl_scenarioD : monthly_pnl [optY1, optY2] = [rowY] := by
  have h1 : ((option_df [optY1, optY2]).map key4Of).dedup =
      [((1970, 1), "Y", (100 : ℚ), "2024-01-25")] := by decide
  have h2 : (option_df [optY1, optY2]).filter
      (fun t => decide (key4Of t = ((1970, 1), "Y", (100 : ℚ), "2024-01-25"))) =
      [optY1, optY2] := by decide
  unfold monthly_pnl
  rw [h1]
  simp only [List.insertionSort, List.orderedInsert, List.map_cons, List.map_nil]
  rw [h2]
  norm_num [option_type, optY1, optY2, cashflow, rowY]

/-- C6 witness: on the scenario-D trades, the single stage-1 row's sums are
the sums over its group. -/
theorem C6_witness :
    rowY.contracts = (((option_df [optY1, optY2]).filter (fun t =>
        decide (key4Of t = (rowY.month, rowY.ticker, rowY.strike, rowY.expiry)))).map
          (fun t => t.quantity)).sum
    ∧ rowY.profitLoss = (((option_df [optY1, optY2]).filter (fun t =>
        decide (key4Of t = (rowY.month, rowY.ticker, rowY.strike, rowY.expiry)))).map
          cashflow).sum :=
  (C6_monthly_rollup [optY1, optY2]).2.1 rowY
    (by rw [monthly_pnl_scenarioD]; exact List.mem_singleton_self rowY)

/-! ### C7: option lifecycle aggregation -/

/-- The group of option trades belonging to a lifecycle row's composite key. -/
def lifecycleGroup (l : List Trade) (r : OptionHolding) : List Trade :=
  (option_df l).filter (fun t => decide (key3Of t = (r.ticker, r.strike, r.expiry)))

/-- C7: every row of the option-holding table comes from a non-empty group of
option trades sharing its (instrument, strike, expiry) key, its entryTime is
the minimum traded time of the group, its exitTime the maximum, and its
holdingDays the floor of (exitTime - entryTime) in whole days.  (The
aggregation performs no FIFO matching: `option_holding` never consults the
matcher.) -/
theorem C7_option_lifecycle (l : List Trade) :
    ∀ r ∈ option_holding l,
      lifecycleGroup l r ≠ []
      ∧ (∃ t ∈ lifecycleGroup l r, t.tradedTime = r.entryTime)
      ∧ (∀ t ∈ lifecycleGroup l r, r.entryTime ≤ t.tradedTime)
      ∧ (∃ t ∈ lifecycleGroup l r, t.tradedTime = r.exitTime)
      ∧ (∀ t ∈ lifecycleGroup l r, t.tradedTime ≤ r.exitTime)
      ∧ r.holdingDays = Int.fdiv (r.exitTime - r.entryTime) secondsPerDay := by
  intro r hr
  unfold option_holding at hr
  rcases List.mem_map.mp hr with ⟨k, hk, rfl⟩
  obtain ⟨kt, ks, ke⟩ := k
  rw [List.mem_insertionSort, List.mem_dedup] at hk
  rcases List.mem_map.mp hk with ⟨t0, ht0, hkey⟩
  have ht0g : t0 ∈ (option_df l).filter
      (fun t => decide (key3Of t = (kt, ks, ke))) :=
    List.mem_filter.mpr ⟨ht0, by simp [hkey]⟩
  have hne : (option_df l).filter
      (fun t => decide (key3Of t = (kt, ks, ke))) ≠ [] :=
    List.ne_nil_of_mem ht0g
  have hmap_ne : ((option_df l).filter
      (fun t => decide (key3Of t = (kt, ks, ke)))).map
        (fun t => t.tradedTime) ≠ [] := by
    intro h0
    exact hne (List.map_eq_nil_iff.mp h0)
  have hmin := minTimes_mem_le _ hmap_ne
  have hmax := maxTimes_mem_ge _ hmap_ne
  rcases List.mem_map.mp hmin.1 with ⟨te, hteg, hte⟩
  rcases List.mem_map.mp hmax.1 with ⟨tx, htxg, htx⟩
  refine ⟨hne, ⟨te, hteg, hte⟩, ?_, ⟨tx, htxg, htx⟩, ?_, rfl⟩
  · intro t htg
    exact hmin.2 t.tradedTime (List.mem_map_of_mem (fun t => t.tradedTime) htg)
  · intro t htg
    exact hmax.2 t.tradedTime (List.mem_map_of_mem (fun t => t.tradedTime) htg)

/-- The lifecycle row of the scenario-D trades: entry day 0, exit day 10,
holding 10 days. -/
def holdY : OptionHolding :=
  { ticker := "Y", strike := 100, expiry := "2024-01-25"
    entryTime := 0, exitTime := 864000, holdingDays := 10 }

/-- C7 witness: the scenario-D trades yield the lifecycle row with entry
day 0, exit day 10, holding 10 days. -/
theorem C7_witness :
    lifecycleGroup [optY1, optY2] holdY ≠ []
    ∧ holdY.entryTime ≤ optY2.tradedTime
    ∧ optY1.tradedTime ≤ holdY.exitTime
    ∧ holdY.holdingDays = Int.fdiv (holdY.exitTime - holdY.entryTime) secondsPerDay :=
  have h := C7_option_lifecycle [optY1, optY2] holdY (by decide)
  ⟨h.1, h.2.2.1 optY2 (by decide), h.2.2.2.2.1 optY1 (by decide), h.2.2.2.2.2⟩

end AlgoTest
